import Mathlib

/-!
Verification development for the campus-store chatbot core: the retrieval
router, the conversation state machine, the session store, the contextual
query reformulation, and the React API client.  Definitions are shallow
embeddings of the program's source (the fixed retrieval and session code in
the repository's review document, the FastAPI `chat` endpoint in the README,
and `src/services/api.ts` / `App.tsx` in the UI); parts of the program whose
source is absent from the repository are modelled from the specification and
marked as such in their doc comments.
-/

/-! ## Character and string utilities -/

/-- Double-quote character, written by code to keep string literals plain. -/
def dquote : Char := Char.ofNat 34

/-- Newline character. -/
def nl : Char := Char.ofNat 10

/-- Whether `pat` occurs as a contiguous subsequence of `l` (Python `in`). -/
def containsSeq (pat : List Char) : List Char → Bool
  | [] => pat.isEmpty
  | c :: cs => pat.isPrefixOf (c :: cs) || containsSeq pat cs

/-- Whether string `s` contains `pat` as a substring (Python `pat in s`). -/
def strContains (s pat : String) : Bool :=
  containsSeq pat.toList s.toList

/-- Accumulator-based splitting of a character list into maximal runs of
characters satisfying `p`; characters not satisfying `p` separate runs and
are dropped (like Python `str.split()` for whitespace separators). -/
def runsAux (p : Char → Bool) : List Char → List Char → List (List Char)
  | [], acc => if acc.isEmpty then [] else [acc.reverse]
  | c :: cs, acc =>
    if p c then runsAux p cs (c :: acc)
    else if acc.isEmpty then runsAux p cs []
    else acc.reverse :: runsAux p cs []

/-- Maximal runs of characters satisfying `p`. -/
def runs (p : Char → Bool) (l : List Char) : List (List Char) :=
  runsAux p l []

/-- Whitespace-separated words of a string, empty pieces dropped
(Python `str.split()` with no argument). -/
def words (s : String) : List String :=
  (runs (fun c => !c.isWhitespace) s.toList).map String.mk

/-- Lowercase a string character by character (Python `str.lower()` on the
ASCII texts the code matches against), mapped over the character list so
that it evaluates by kernel reduction. -/
def strToLower (s : String) : String :=
  String.mk (s.toList.map Char.toLower)

/-- Remove leading and trailing whitespace (Python `str.strip()`). -/
def stripChars (l : List Char) : List Char :=
  ((l.dropWhile Char.isWhitespace).reverse.dropWhile Char.isWhitespace).reverse

/-! ## Article-link extraction

The retriever parses an embedded citation out of the matched chunk text with
the regular expression `Article link:\s*"?([^"\n]+)"?` and then strips the
captured group; a failed match yields `None` (review document, Bug 1 fix). -/

/-- Literal text that anchors the article-link pattern. -/
def link_pattern : List Char := "Article link:".toList

/-- Consume one optional double quote (the `"?` of the regex). -/
def dropQuote : List Char → List Char
  | [] => []
  | c :: rest => if c = dquote then rest else c :: rest

/-- Parse the part of the pattern after the literal anchor: optional
whitespace (`\s*`), an optional quote (`"?`), then one or more characters
that are neither a quote nor a newline (`([^"\n]+)`). -/
def afterPattern (cs : List Char) : Option (List Char) :=
  let cs1 := cs.dropWhile Char.isWhitespace
  let cs2 := dropQuote cs1
  let body := cs2.takeWhile (fun c => !(c == dquote || c == nl))
  if body.isEmpty then none else some body

/-- Scan the text for the first position where the anchored pattern matches
and the tail parses (the scanning behaviour of `re.search`). -/
def findArticleLink : List Char → Option (List Char)
  | [] => none
  | c :: cs =>
    if link_pattern.isPrefixOf (c :: cs) then
      match afterPattern ((c :: cs).drop link_pattern.length) with
      | some b => some b
      | none => findArticleLink cs
    else findArticleLink cs

/-- Extract the article link from a chunk text: the stripped capture of the
regex `Article link:\s*"?([^"\n]+)"?`, or `none` when the pattern is absent. -/
def extract_article_link (text : String) : Option String :=
  (findArticleLink text.toList).map (fun b => String.mk (stripChars b))

/-! ## Embedding vectors and similarity search

The fixed retriever (review document, Solution 2) uses `IndexFlatIP`: the
score of a candidate is the inner product of the normalized query embedding
with the candidate's normalized embedding, and the search returns the
candidate of maximal score.  Vectors are modelled as lists of integers
(floating-point coordinates are not exactly representable anyway, and the
claims concern the comparison structure of the scores, which any exact
numeric carrier preserves). -/

/-- An embedding vector. -/
abbrev Vec := List ℤ

/-- Inner product of two vectors, pairwise over the common length. -/
def dot : Vec → Vec → ℤ
  | [], _ => 0
  | _, [] => 0
  | a :: as, b :: bs => a * b + dot as bs

/-- Squared Euclidean (L2) distance; the metric `IndexFlatL2` would use,
kept here only to state that inner product on normalized vectors orders
candidates opposite to it. -/
def l2sq : Vec → Vec → ℤ
  | [], [] => 0
  | [], b :: bs => b * b + l2sq [] bs
  | a :: as, [] => a * a + l2sq as []
  | a :: as, b :: bs => (a - b) * (a - b) + l2sq as bs

/-- Linear scan keeping the best (index, score) seen so far; a later
candidate replaces the current best only on a strictly greater score,
so the first maximal candidate wins. -/
def searchTopAux (q : Vec) : List Vec → Nat → Nat × ℤ → Nat × ℤ
  | [], _, best => best
  | v :: vs, i, best =>
    searchTopAux q vs (i + 1) (if best.2 < dot q v then (i, dot q v) else best)

/-- Top-1 inner-product search over an index: `none` on an empty index,
otherwise the index position and score of a candidate of maximal inner
product with the query. -/
def searchTop (q : Vec) : List Vec → Option (Nat × ℤ)
  | [] => none
  | v :: vs => some (searchTopAux q vs 1 (0, dot q v))

/-! ## The retrieval router -/

/-- Best match returned by the router: the chunk text, its similarity score,
a stable citation id, and the optional parsed article link. -/
structure RetrievalResult where
  context : String
  score : ℤ
  source_id : String
  article_link : Option String
  deriving DecidableEq, Repr

/-- Observable side effects of one `retrieve` call, recorded so that the
per-request work can be counted: an embedding-provider invocation, a search
of a named pre-built index, or the construction of a temporary index (which
the fixed code never performs). -/
inductive Effect where
  | embedCall (query : String)
  | searchCall (index_name : String)
  | buildIndex (index_name : String)
  deriving DecidableEq, Repr

/-- Whether an effect is an embedding-provider invocation. -/
def Effect.isEmbed : Effect → Bool
  | .embedCall _ => true
  | _ => false

/-- Whether an effect is a search of a pre-built index. -/
def Effect.isSearch : Effect → Bool
  | .searchCall _ => true
  | _ => false

/-- Whether an effect is a temporary index build. -/
def Effect.isBuild : Effect → Bool
  | .buildIndex _ => true
  | _ => false

/-- The retriever's load-time state (review document, Solution 2
`FAQRetriever.__init__`): the embedding model, one index and parallel chunk
list per collection, optional pre-built platform-specific indices (absent
when the artifact is missing), and the confidence floor.  The floor is
modelled from the spec: the review snippets omit it, the spec's no-match
policy makes it a configured tunable. -/
structure Retriever where
  model : String → Vec
  faq_index : List Vec
  faq_chunks : List String
  instructions_index : List Vec
  instruction_chunks : List String
  cengage_index : Option (List Vec)
  cengage_chunks : List String
  mcgraw_index : Option (List Vec)
  mcgraw_chunks : List String
  score_floor : ℤ

/-- Keyword set associated with access/troubleshooting queries.
Modelled from the spec: `_select_collection` is called but not shown in the
repository sources; the spec describes a lexical keyword heuristic. -/
def instruction_keywords : List String :=
  ["access", "login", "log in", "password", "connect", "mindtap", "install"]

/-- Collection classification for `collection == "auto"`.
Modelled from the spec: keyword signals pick "instructions", ties and
everything else default to "faqs". -/
def select_collection (query : String) : String :=
  if instruction_keywords.any (fun kw => strContains (strToLower query) kw)
  then "instructions" else "faqs"

/-- Platform detection by keyword, following the ingest-time classification
in the review document (`cengage`/`mindtap` first, then `mcgraw`/`connect`). -/
def detect_platform (m : String) : Option String :=
  let lm := strToLower m
  if strContains lm "cengage" || strContains lm "mindtap" then some "CENGAGE"
  else if strContains lm "mcgraw" || strContains lm "connect" then some "MCGRAW_HILL"
  else none

/-- Citation-id prefix for each selected index, as produced by the review's
retrieve code ("FAQ_SOURCE_{i}", "INSTR_MCGRAW..." etc.). -/
def source_tag (index_name : String) : String :=
  if index_name = "faqs" then "FAQ"
  else if index_name = "instructions_cengage" then "INSTR_CENGAGE"
  else if index_name = "instructions_mcgraw" then "INSTR_MCGRAW"
  else "INSTR"

/-- Index selection of `retrieve` (review document, Solution 2): resolve the
collection ("auto" goes through the classifier), then for "instructions"
pick the pre-built platform index when it exists, falling back to the full
instructions index; every other collection uses the FAQ index.  Returns the
vectors, the parallel chunk list, and the index name. -/
def selection (r : Retriever) (query collection : String) (platform : Option String) :
    List Vec × List String × String :=
  let selected := if collection = "auto" then select_collection query else collection
  if selected = "instructions" then
    match platform with
    | some p =>
      if p = "CENGAGE" then
        match r.cengage_index with
        | some ix => (ix, r.cengage_chunks, "instructions_cengage")
        | none => (r.instructions_index, r.instruction_chunks, "instructions")
      else if p = "MCGRAW_HILL" then
        match r.mcgraw_index with
        | some ix => (ix, r.mcgraw_chunks, "instructions_mcgraw")
        | none => (r.instructions_index, r.instruction_chunks, "instructions")
      else (r.instructions_index, r.instruction_chunks, "instructions")
    | none => (r.instructions_index, r.instruction_chunks, "instructions")
  else (r.faq_index, r.faq_chunks, "faqs")

/-- The retrieval router (review document, Bug 1 fix and Solution 2):
select the pre-built index, embed the query once, search the index once, and
assemble the best match with its citation id and parsed article link.
Modelled from the spec: the empty-index guard and the confidence-floor
comparison come from the spec's no-match policy (returning `none` instead of
raising), which the review snippets leave implicit.  The effect trace
records the embedding call and the index search.  `k` is accepted as in the
source but only the top result is used. -/
def retrieve (r : Retriever) (query collection : String) (platform : Option String)
    (k : Nat) : Option RetrievalResult × List Effect :=
  let sel := selection r query collection platform
  let query_embedding := r.model query
  let trace := [Effect.embedCall query, Effect.searchCall sel.2.2]
  match searchTop query_embedding sel.1 with
  | none => (none, trace)
  | some (best_index, best_score) =>
    if best_score < r.score_floor then (none, trace)
    else
      let best_chunk := sel.2.1.getD best_index ""
      (some { context := best_chunk
              score := best_score
              source_id := source_tag sel.2.2 ++ "_SOURCE_" ++ toString best_index
              article_link := extract_article_link best_chunk }, trace)

/-- Load-time index construction (review document, Solution 2 ingest):
embed a chunk list once into a parallel vector list. -/
def build_index (model : String → Vec) (chunks : List String) : List Vec :=
  chunks.map model

/-- Load-time retriever construction (review document, Solution 2 ingest and
`__init__`): platform chunk subsets are classified by keyword (`cengage`
before `mcgraw`, as in the ingest `elif`), and every index, including the
platform-specific ones, is built once here, never per request. -/
def mkRetriever (model : String → Vec) (faq_chunks instruction_chunks : List String)
    (floor : ℤ) : Retriever :=
  let cengCond := fun (c : String) =>
    strContains (strToLower c) "cengage" || strContains (strToLower c) "mindtap"
  let mcCond := fun (c : String) =>
    strContains (strToLower c) "mcgraw" || strContains (strToLower c) "connect"
  let cengage_chunks := instruction_chunks.filter cengCond
  let mcgraw_chunks := instruction_chunks.filter (fun c => !cengCond c && mcCond c)
  { model := model
    faq_index := build_index model faq_chunks
    faq_chunks := faq_chunks
    instructions_index := build_index model instruction_chunks
    instruction_chunks := instruction_chunks
    cengage_index := if cengage_chunks.isEmpty then none
                     else some (build_index model cengage_chunks)
    cengage_chunks := cengage_chunks
    mcgraw_index := if mcgraw_chunks.isEmpty then none
                    else some (build_index model mcgraw_chunks)
    mcgraw_chunks := mcgraw_chunks
    score_floor := floor }

/-! ## Course-code extraction -/

/-- Alphanumeric tokens of a message (runs of letters and digits; every
other character separates tokens). -/
def tokenize (l : List Char) : List (List Char) :=
  runs Char.isAlphanum l

/-- Whether a token has the shape of a course code: two to four letters
followed immediately by one or more digits, nothing else.
Modelled from the spec: `extract_course_code` is called in the review's
Bug 2 fix but its body is absent from the repository; the spec requires a
strict structural pattern over the message (e.g. "BIO101"). -/
def code_shape (t : List Char) : Bool :=
  let al := t.takeWhile Char.isAlpha
  let dg := t.dropWhile Char.isAlpha
  decide (2 ≤ al.length) && decide (al.length ≤ 4) && !dg.isEmpty && dg.all Char.isDigit

/-- Strict course-code extraction (review document, Bug 2 fix:
`course_code = extract_course_code(message)`): the first token of the
message matching the course-code pattern, never the raw message body.
Modelled from the spec as to the exact pattern. -/
def extract_course_code (m : String) : Option String :=
  ((tokenize m.toList).find? code_shape).map String.mk

/-! ## Sessions and the session store -/

/-- Speaker of one history turn. -/
inductive Role where
  | user
  | assistant
  deriving DecidableEq, Repr

/-- One conversation turn. -/
structure Turn where
  role : Role
  content : String
  deriving DecidableEq, Repr

/-- Per-conversation state (review document, Solution 1): ordered history,
the pending-slot flag, the stashed intent and platform, and the
last-activity timestamp (modelled as a natural number of seconds). -/
structure Session where
  history : List Turn
  awaiting_course_code : Bool
  stored_intent : Option String
  stored_platform : Option String
  last_activity : Nat
  deriving DecidableEq, Repr

/-- State a session is created with (review document, Solution 1
`get_or_create_session`): empty history, no pending slot, no stashed
intent or platform, last activity now. -/
def defaultSession (now : Nat) : Session :=
  { history := []
    awaiting_course_code := false
    stored_intent := none
    stored_platform := none
    last_activity := now }

/-- The session store: an insertion-ordered keyed registry, as a Python
dict of session id to session. -/
abbrev SessionStore := List (String × Session)

/-- Dictionary lookup. -/
def storeFind : SessionStore → String → Option Session
  | [], _ => none
  | (k, v) :: rest, sid => if k = sid then some v else storeFind rest sid

/-- Dictionary update of an existing key. -/
def storeUpdate : SessionStore → String → Session → SessionStore
  | [], _, _ => []
  | (k, v) :: rest, sid, s =>
    if k = sid then (k, s) :: rest else (k, v) :: storeUpdate rest sid s

/-- Idle timeout (review document, Solution 1: `timedelta(hours=1)`),
in seconds. -/
def SESSION_TIMEOUT : Nat := 3600

/-- Review document, Solution 1 `get_or_create_session`: create the session
with defaults when the id is absent, then unconditionally refresh
`last_activity` and return the stored session. -/
def get_or_create_session (store : SessionStore) (sid : String) (now : Nat) :
    Session × SessionStore :=
  let store1 :=
    match storeFind store sid with
    | none => store ++ [(sid, defaultSession now)]
    | some _ => store
  let s := (storeFind store1 sid).getD (defaultSession now)
  let s' := { s with last_activity := now }
  (s', storeUpdate store1 sid s')

/-- Review document, Solution 1 `cleanup_expired_sessions`: delete every
session whose idle time strictly exceeds the timeout. -/
def cleanup_expired_sessions (store : SessionStore) (now : Nat) : SessionStore :=
  store.filter (fun kv => !decide (now - kv.2.last_activity > SESSION_TIMEOUT))

/-! ## Contextual query reformulation -/

/-- Pronoun list of `build_contextual_query` (review document, Solution 4). -/
def pronouns : List String := ["it", "that", "this", "there", "where"]

/-- Whether any pronoun occurs among the lowercased whitespace-split words
of the message (`any(pronoun in message.lower().split() ...)`). -/
def hasPronoun (message : String) : Bool :=
  pronouns.any (fun p => (words (strToLower message)).contains p)

/-- Content of the most recent assistant turn, scanning history backwards
(review document, Solution 4). -/
def lastAssistantResponse (history : List Turn) : Option String :=
  (history.reverse.find? (fun t => decide (t.role = Role.assistant))).map Turn.content

/-- Review document, Solution 4 `build_contextual_query`: with fewer than
two history turns, or no assistant turn, or an empty last assistant
response (falsy in Python), or no pronoun among the message's words, the
message is returned unmodified; otherwise the first 200 characters of the
most recent assistant response are prepended, separated by one space. -/
def build_contextual_query (message : String) (history : List Turn) : String :=
  if history.length < 2 then message
  else
    match lastAssistantResponse history with
    | none => message
    | some last_response =>
      if last_response = "" then message
      else if hasPronoun message then last_response.take 200 ++ " " ++ message
      else message

/-! ## The conversation state machine -/

/-- Output of one state-machine step: either the answered path (retrieval
result plus the intent, platform and course code passed downstream) or a
clarification prompt while a slot is pending. -/
inductive SMOutput where
  | answered (result : Option RetrievalResult) (intent : Option String)
      (platform : Option String) (course_code : Option String)
  | slotPrompt (text : String)
  deriving DecidableEq, Repr

/-- Whether the message announces an access issue.
Modelled from the spec: the intent-detection body is absent from the
repository; the spec describes lexical detection of access issues. -/
def is_access_issue (m : String) : Bool :=
  strContains (strToLower m) "access"

/-- Whether a clarification for the course code is needed: an access issue
whose message carries no course code.  Modelled from the spec. -/
def needs_course_code (m : String) : Bool :=
  is_access_issue m && (extract_course_code m).isNone

/-- The clarification question the bot asks for the missing slot. -/
def clarification_prompt : String := "What\x27s your course code?"

/-- One request through the fixed main flow (review document, Bug 2 and
Bug 3 fixes): the branch is decided on the session state before any history
change; when a course code is pending, the slot value is extracted by the
strict pattern and, on success, merged with the stashed intent/platform,
the pending state is cleared and retrieval proceeds; on failure the slot is
re-prompted and the pending flag kept; when idle, either a clarification is
asked (stashing intent/platform) or the contextually reformulated query is
retrieved.  As in the Bug 3 fix snippet, the raw user message is appended
to history exactly once, after state resolution, on every branch. -/
def handle_message (r : Retriever) (s : Session) (msg : String) (now : Nat) :
    Session × SMOutput :=
  if s.awaiting_course_code then
    match extract_course_code msg with
    | some code =>
      let res := (retrieve r msg "instructions" s.stored_platform 1).1
      ({ history := s.history ++ [Turn.mk Role.user msg]
         awaiting_course_code := false
         stored_intent := none
         stored_platform := none
         last_activity := now },
       SMOutput.answered res s.stored_intent s.stored_platform (some code))
    | none =>
      ({ s with history := s.history ++ [Turn.mk Role.user msg], last_activity := now },
       SMOutput.slotPrompt clarification_prompt)
  else if needs_course_code msg then
    ({ history := s.history ++ [Turn.mk Role.user msg]
       awaiting_course_code := true
       stored_intent := some "IA_ACCESS_ISSUE"
       stored_platform := detect_platform msg
       last_activity := now },
     SMOutput.slotPrompt clarification_prompt)
  else
    let contextual_query := build_contextual_query msg s.history
    let res := (retrieve r contextual_query "auto" (detect_platform msg) 1).1
    ({ s with history := s.history ++ [Turn.mk Role.user msg], last_activity := now },
     SMOutput.answered res none (detect_platform msg) none)

/-! ## Backend endpoint and the UI API client

The FastAPI `chat` endpoint from the README wraps the generation call in
`try/except` and re-raises any failure as `HTTPException(500, detail)`;
`src/services/api.ts` throws on any non-ok response or network failure and
`App.tsx` catches and shows an apology system message. -/

/-- Outcome of the downstream text-generation call: a reply, or a
`GenerationError` (network, timeout, malformed response). -/
inductive GenOutcome where
  | ok (text : String)
  | genError (message : String)
  deriving DecidableEq, Repr

/-- An HTTP error response (FastAPI `HTTPException`). -/
structure HttpError where
  status : Nat
  detail : String
  deriving DecidableEq, Repr

/-- The README's `chat` endpoint: return the generated reply, and on any
exception raise `HTTPException(status_code=500, detail=str(e))`. -/
def chat_endpoint (gen : GenOutcome) : Except HttpError String :=
  match gen with
  | .ok t => .ok t
  | .genError m => .error { status := 500, detail := m }

/-- Body of a successful `/chat` response (`ChatResponse` in
`src/services/api.ts`; the optional PDF-recommendation and timing fields
are omitted). -/
structure ChatResponse where
  reply : String
  source : String
  article_link : Option String
  confidence : ℚ
  deriving DecidableEq, Repr

/-- Per-session summary in the stats body (`SessionStats` in
`src/services/api.ts`). -/
structure SessionSummary where
  id : String
  history_length : Nat
  awaiting_course_code : Bool
  age_minutes : ℚ
  deriving DecidableEq, Repr

/-- Body of a `/sessions/stats` response. -/
structure SessionStats where
  active_sessions : Nat
  sessions : List SessionSummary
  deriving DecidableEq, Repr

/-- Outcome of one `fetch` call: an HTTP response with a status code and a
parsed body, or a rejected promise (network failure). -/
inductive FetchOutcome (α : Type) where
  | success (status : Nat) (body : α)
  | networkError (message : String)
  deriving DecidableEq, Repr

/-- The `response.ok` flag of the Fetch API: status in the 200-299 range. -/
def respOk (status : Nat) : Bool :=
  decide (200 ≤ status) && decide (status < 300)

/-- `sendChatMessage` from `src/services/api.ts`: throw
`API Error: {status}` on a non-ok response, re-throw a network failure, and
return the parsed body otherwise (the status text of the thrown message is
omitted). -/
def sendChatMessage (o : FetchOutcome ChatResponse) : Except String ChatResponse :=
  match o with
  | .success status body =>
    if respOk status then .ok body
    else .error ("API Error: " ++ toString status)
  | .networkError m => .error m

/-- `checkApiHealth` from `src/services/api.ts`: fetch `/sessions/stats`,
return `response.ok`, and return `false` from the catch block on any
failure; it never throws. -/
def checkApiHealth (o : FetchOutcome SessionStats) : Bool :=
  match o with
  | .success status _ => respOk status
  | .networkError _ => false

/-- Kind of a UI chat bubble (`Message.type` in `App.tsx`). -/
inductive MsgType where
  | user
  | assistant
  | system
  deriving DecidableEq, Repr

/-- One UI chat bubble (`Message` in `App.tsx`, reduced to the fields the
error-handling flow touches). -/
structure Message where
  type : MsgType
  content : String
  deriving DecidableEq, Repr

/-- The apology/retry system message of `App.tsx`'s catch block. -/
def apology : String :=
  "⚠️ Sorry, I\x27m having trouble connecting to the server. Please try again."

/-- `handleSendMessage` from `App.tsx`: append the user bubble immediately,
then either append the assistant bubble with the backend reply, or, when
`sendChatMessage` threw, append the apology system bubble; no failure
escapes the handler. -/
def handleSendMessage (prev : List Message) (content : String)
    (o : FetchOutcome ChatResponse) : List Message :=
  let withUser := prev ++ [Message.mk MsgType.user content]
  match sendChatMessage o with
  | .ok resp => withUser ++ [Message.mk MsgType.assistant resp.reply]
  | .error _ => withUser ++ [Message.mk MsgType.system apology]

/-- Placeholder response body used when the backend answered with an error
status (the UI never reads the body in that case). -/
def defaultChatResponse : ChatResponse :=
  { reply := "", source := "", article_link := none, confidence := 0 }

/-- End-to-end composition of the backend endpoint and the UI handler: the
endpoint's reply travels as a 200 response, an `HTTPException` travels as a
response with its error status. -/
def systemPipeline (gen : GenOutcome) (prev : List Message) (content : String) :
    List Message :=
  match chat_endpoint gen with
  | .ok reply =>
    handleSendMessage prev content
      (.success 200 { defaultChatResponse with reply := reply })
  | .error e => handleSendMessage prev content (.success e.status defaultChatResponse)

/-! ## Concrete fixture used by the witnesses -/

/-- A trivial deterministic embedding model for concrete evaluation. -/
def model0 : String → Vec := fun _ => [1]

/-- A small retriever built through the load-time constructor. -/
def r0 : Retriever :=
  mkRetriever model0
    ["Returns are accepted within 30 days."]
    ["PROBLEM: Cengage MindTap access steps", "PROBLEM: McGraw Hill Connect access steps"]
    0

/-! ## Helper lemmas -/

/-- Appending a fresh key to the store makes it found. -/
theorem storeFind_append_self (store : SessionStore) (sid : String) (x : Session)
    (h : storeFind store sid = none) :
    storeFind (store ++ [(sid, x)]) sid = some x := by
  induction store with
  | nil => simp [storeFind]
  | cons kv rest ih =>
    obtain ⟨k, v⟩ := kv
    by_cases hk : k = sid
    · simp [storeFind, hk] at h
    · simp only [storeFind, hk, if_false, List.cons_append] at h ⊢
      exact ih h

/-- Updating a present key is observed by lookup. -/
theorem storeFind_update (store : SessionStore) (sid : String) (s0 s' : Session)
    (h : storeFind store sid = some s0) :
    storeFind (storeUpdate store sid s') sid = some s' := by
  induction store with
  | nil => simp [storeFind] at h
  | cons kv rest ih =>
    obtain ⟨k, v⟩ := kv
    by_cases hk : k = sid
    · simp [storeFind, storeUpdate, hk]
    · simp only [storeFind, hk, if_false] at h
      simp only [storeUpdate, hk, if_false, storeFind]
      exact ih h

/-- The top-1 search fails exactly on the empty index. -/
theorem searchTop_eq_none (q : Vec) (vecs : List Vec) :
    searchTop q vecs = none ↔ vecs = [] := by
  cases vecs <;> simp [searchTop]

/-- Invariants of the best-so-far scan: the score never decreases, it
dominates every candidate scanned, and the result is either the initial
best or a scanned candidate together with its inner product. -/
theorem searchTopAux_spec (q : Vec) (vs : List Vec) :
    ∀ (i0 : Nat) (best : Nat × ℤ),
      best.2 ≤ (searchTopAux q vs i0 best).2
      ∧ (∀ j, j < vs.length → dot q (vs.getD j []) ≤ (searchTopAux q vs i0 best).2)
      ∧ (searchTopAux q vs i0 best = best
         ∨ ∃ j, j < vs.length
             ∧ searchTopAux q vs i0 best = (i0 + j, dot q (vs.getD j []))) := by
  induction vs with
  | nil =>
    intro i0 best
    refine ⟨le_refl _, ?_, Or.inl rfl⟩
    intro j hj
    simp at hj
  | cons v vs ih =>
    intro i0 best
    rcases le_or_lt (dot q v) best.2 with hle | hlt
    · have hstep : searchTopAux q (v :: vs) i0 best = searchTopAux q vs (i0 + 1) best := by
        simp [searchTopAux, not_lt.mpr hle]
      obtain ⟨ih1, ih2, ih3⟩ := ih (i0 + 1) best
      refine ⟨?_, ?_, ?_⟩
      · rw [hstep]
        exact ih1
      · intro j hj
        rw [hstep]
        cases j with
        | zero => simpa using le_trans hle ih1
        | succ j' =>
          have hj' : j' < vs.length := by simpa using hj
          simpa using ih2 j' hj'
      · rw [hstep]
        rcases ih3 with h | ⟨j, hj, hje⟩
        · exact Or.inl h
        · refine Or.inr ⟨j + 1, by simpa using hj, ?_⟩
          rw [hje]
          simp only [List.getD_cons_succ, Prod.mk.injEq]
          exact ⟨by omega, trivial⟩
    · have hstep : searchTopAux q (v :: vs) i0 best
          = searchTopAux q vs (i0 + 1) (i0, dot q v) := by
        simp [searchTopAux, hlt]
      obtain ⟨ih1, ih2, ih3⟩ := ih (i0 + 1) (i0, dot q v)
      refine ⟨?_, ?_, ?_⟩
      · rw [hstep]
        exact le_trans (le_of_lt hlt) ih1
      · intro j hj
        rw [hstep]
        cases j with
        | zero => simpa using ih1
        | succ j' =>
          have hj' : j' < vs.length := by simpa using hj
          simpa using ih2 j' hj'
      · rw [hstep]
        rcases ih3 with h | ⟨j, hj, hje⟩
        · refine Or.inr ⟨0, by simp, ?_⟩
          rw [h]
          simp
        · refine Or.inr ⟨j + 1, by simpa using hj, ?_⟩
          rw [hje]
          simp only [List.getD_cons_succ, Prod.mk.injEq]
          exact ⟨by omega, trivial⟩

/-- Correctness of the top-1 search: the returned position is in range, the
returned score is the inner product of the query with the vector at that
position, and it dominates every candidate in the index. -/
theorem searchTop_spec (q : Vec) (vecs : List Vec) (i : Nat) (s : ℤ)
    (h : searchTop q vecs = some (i, s)) :
    i < vecs.length
    ∧ s = dot q (vecs.getD i [])
    ∧ ∀ j, j < vecs.length → dot q (vecs.getD j []) ≤ s := by
  cases vecs with
  | nil => simp [searchTop] at h
  | cons v vs =>
    have hr : searchTopAux q vs 1 (0, dot q v) = (i, s) := by
      simpa [searchTop] using h
    obtain ⟨h1, h2, h3⟩ := searchTopAux_spec q vs 1 (0, dot q v)
    rw [hr] at h1 h2 h3
    rcases h3 with he | ⟨j, hj, hje⟩
    · have hi : i = 0 := congrArg Prod.fst he
      have hs : s = dot q v := congrArg Prod.snd he
      subst hi
      subst hs
      refine ⟨by simp, by simp, ?_⟩
      intro j hj
      cases j with
      | zero => simp
      | succ j' =>
        have hj' : j' < vs.length := by simpa using hj
        simpa using h2 j' hj'
    · have hi : i = 1 + j := congrArg Prod.fst hje
      have hs : s = dot q (vs.getD j []) := congrArg Prod.snd hje
      have hij : i = j + 1 := by omega
      subst hij
      refine ⟨by simpa using Nat.succ_lt_succ hj, ?_, ?_⟩
      · simpa using hs
      · intro j0 hj0
        cases j0 with
        | zero => simpa using h1
        | succ j0' =>
          have hj0' : j0' < vs.length := by simpa using hj0
          simpa using h2 j0' hj0'

/-- The L2 distance on the empty right argument. -/
theorem l2sq_nil_right (a : Vec) : l2sq a [] = dot a a := by
  induction a with
  | nil => simp [l2sq, dot]
  | cons x xs ih => simp [l2sq, dot, ih]

/-- The L2 distance on the empty left argument. -/
theorem l2sq_nil_left (b : Vec) : l2sq [] b = dot b b := by
  induction b with
  | nil => simp [l2sq, dot]
  | cons y ys ih => simp [l2sq, dot, ih]

/-- Polarization identity linking squared L2 distance and inner products. -/
theorem l2sq_eq_dot (a : Vec) : ∀ b : Vec, l2sq a b = dot a a + dot b b - 2 * dot a b := by
  induction a with
  | nil =>
    intro b
    simp [l2sq_nil_left, dot]
  | cons x xs ih =>
    intro b
    cases b with
    | nil =>
      simp only [l2sq_nil_right, dot]
      ring
    | cons y ys =>
      simp only [l2sq, dot, ih ys]
      ring

/-! ## Claim theorems -/

/-- C10: in the API client, `sendChatMessage` throws (returns an error, not
a `ChatResponse`) on every non-ok response and on every network failure,
while `checkApiHealth` never throws and returns `true` exactly when the
stats request resolves with an ok status. -/
theorem c10_api_client_error_handling :
    (∀ (status : Nat) (body : ChatResponse), respOk status = false →
      sendChatMessage (FetchOutcome.success status body)
        = Except.error ("API Error: " ++ toString status))
    ∧ (∀ m : String,
        sendChatMessage (FetchOutcome.networkError m) = Except.error m)
    ∧ (∀ o : FetchOutcome SessionStats,
        checkApiHealth o = true
          ↔ ∃ status body, o = FetchOutcome.success status body ∧ respOk status = true) := by
  refine ⟨?_, ?_, ?_⟩
  · intro status body h
    simp [sendChatMessage, h]
  · intro m
    rfl
  · intro o
    cases o with
    | success status body =>
      constructor
      · intro h
        exact ⟨status, body, rfl, h⟩
      · rintro ⟨st, b, heq, hok⟩
        cases heq
        exact hok
    | networkError m =>
      constructor
      · intro h
        simp [checkApiHealth] at h
      · rintro ⟨st, b, heq, hok⟩
        cases heq

/-- Witness for C10 at a concrete non-ok response. -/
theorem c10_api_client_error_handling_witness :
    sendChatMessage (FetchOutcome.success 500 defaultChatResponse)
      = Except.error ("API Error: " ++ toString 500) :=
  c10_api_client_error_handling.1 500 defaultChatResponse rfl

/-- C8 counterexample: on a failed generation the README's `chat` endpoint
answers its HTTP caller with a raw 500 server error (an `HTTPException`
carrying the exception text), so the failure *is* propagated to the
caller of the endpoint as a server error, contrary to the claim. -/
theorem c8_counterexample :
    chat_endpoint (GenOutcome.genError "timeout")
      = Except.error { status := 500, detail := "timeout" }
    ∧ respOk 500 = false :=
  ⟨rfl, rfl⟩

/-- C8 amended: when generation fails, the backend answers its HTTP caller
with a 500 error response (it does not crash), and the UI layer catches the
failed request and appends the user-visible apology/retry message, so the
end user always sees the apology and never an unhandled failure. -/
theorem c8_generation_failure_apology :
    ∀ (m : String) (prev : List Message) (content : String),
      systemPipeline (GenOutcome.genError m) prev content
        = prev ++ [Message.mk MsgType.user content, Message.mk MsgType.system apology]
      ∧ chat_endpoint (GenOutcome.genError m)
        = Except.error { status := 500, detail := m } := by
  intro m prev content
  constructor
  · simp [systemPipeline, chat_endpoint, handleSendMessage, sendChatMessage, respOk]
  · rfl

/-- C9: `get_or_create_session` creates a session with default state on
first use and returns the stored session with `last_activity` refreshed on
every later use, and the expiration sweep keeps exactly the sessions whose
idle time does not exceed the timeout. -/
theorem c9_session_lifecycle :
    (∀ (store : SessionStore) (sid : String) (now : Nat),
      storeFind store sid = none →
        (get_or_create_session store sid now).1 = defaultSession now
        ∧ storeFind (get_or_create_session store sid now).2 sid
            = some (defaultSession now))
    ∧ (∀ (store : SessionStore) (sid : String) (now : Nat) (s : Session),
        storeFind store sid = some s →
          (get_or_create_session store sid now).1 = { s with last_activity := now }
          ∧ storeFind (get_or_create_session store sid now).2 sid
              = some { s with last_activity := now })
    ∧ (∀ (store : SessionStore) (now : Nat) (kv : String × Session),
        kv ∈ cleanup_expired_sessions store now
          ↔ kv ∈ store ∧ now - kv.2.last_activity ≤ SESSION_TIMEOUT) := by
  refine ⟨?_, ?_, ?_⟩
  · intro store sid now h
    have h1 : storeFind (store ++ [(sid, defaultSession now)]) sid
        = some (defaultSession now) := storeFind_append_self store sid _ h
    constructor
    · simp only [get_or_create_session, h]
      rw [h1]
      rfl
    · simp only [get_or_create_session, h]
      rw [h1]
      exact storeFind_update _ _ _ _ h1
  · intro store sid now s h
    constructor
    · simp only [get_or_create_session, h]
      rfl
    · simp only [get_or_create_session, h]
      exact storeFind_update _ _ _ _ h
  · intro store now kv
    simp [cleanup_expired_sessions, List.mem_filter, Nat.not_lt]

/-- Witness for C9: a fresh id in the empty store gets the default session. -/
theorem c9_session_lifecycle_witness :
    (get_or_create_session [] "alice" 7).1 = defaultSession 7
    ∧ storeFind (get_or_create_session [] "alice" 7).2 "alice"
        = some (defaultSession 7) :=
  c9_session_lifecycle.1 [] "alice" 7 rfl

/-- C3: every `retrieve` call performs exactly one embedding-provider
invocation and exactly one search of a pre-built index, and never builds a
temporary index, on every request path. -/
theorem c3_single_embed_single_search :
    ∀ (r : Retriever) (query collection : String) (platform : Option String) (k : Nat),
      ((retrieve r query collection platform k).2.countP Effect.isEmbed = 1)
      ∧ ((retrieve r query collection platform k).2.countP Effect.isSearch = 1)
      ∧ ((retrieve r query collection platform k).2.countP Effect.isBuild = 0) := by
  intro r query collection platform k
  have ht : (retrieve r query collection platform k).2
      = [Effect.embedCall query,
         Effect.searchCall (selection r query collection platform).2.2] := by
    unfold retrieve
    dsimp only
    split
    · rfl
    · split <;> rfl
  refine ⟨?_, ?_, ?_⟩ <;> rw [ht] <;> rfl

/-- C4: `retrieve` returns `none` (NoMatch) exactly when the selected index
is empty or the top score falls below the configured confidence floor, for
every collection; and the "faqs" collection has a genuine retrieval path
selecting the FAQ index. -/
theorem c4_no_match_policy :
    (∀ (r : Retriever) (query collection : String) (platform : Option String) (k : Nat),
      (retrieve r query collection platform k).1 = none
        ↔ ((selection r query collection platform).1 = []
           ∨ ∃ i s, searchTop (r.model query) (selection r query collection platform).1
                      = some (i, s)
                    ∧ s < r.score_floor))
    ∧ (∀ (r : Retriever) (query : String) (platform : Option String),
        selection r query "faqs" platform = (r.faq_index, r.faq_chunks, "faqs")) := by
  constructor
  · intro r query collection platform k
    rcases hst : searchTop (r.model query) (selection r query collection platform).1
      with _ | ⟨i, s⟩
    · simp [retrieve, hst, (searchTop_eq_none _ _).mp hst, searchTop]
    · have hne : (selection r query collection platform).1 ≠ [] := by
        intro he
        rw [he] at hst
        simp [searchTop] at hst
      by_cases hf : s < r.score_floor
      · simp only [retrieve, hst]
        simp [hf, hne]
        exact ⟨i, s, ⟨rfl, rfl⟩, hf⟩
      · simp only [retrieve, hst]
        simp [hf, hne]
        exact le_of_not_lt hf
  · intro r query platform
    rfl

/-- C5: the score of every retrieval result is the inner product of the
embedded query with the matched chunk's vector, and it dominates the inner
product of the query with every candidate in the selected index (so the
more similar of two candidates always receives the higher score and can
never lose); moreover on normalized vectors the inner-product ordering is
exactly the reverse of the L2 ordering, which is why the L2 metric would
invert the comparison direction. -/
theorem c5_inner_product_scoring :
    (∀ (r : Retriever) (query collection : String) (platform : Option String) (k : Nat)
        (res : RetrievalResult),
      (retrieve r query collection platform k).1 = some res →
        ∃ i, i < (selection r query collection platform).1.length
          ∧ res.score
              = dot (r.model query) ((selection r query collection platform).1.getD i [])
          ∧ ∀ j, j < (selection r query collection platform).1.length →
              dot (r.model query) ((selection r query collection platform).1.getD j [])
                ≤ res.score)
    ∧ (∀ u v w : Vec, dot v v = 1 → dot w w = 1 →
        (dot u w < dot u v ↔ l2sq u v < l2sq u w)) := by
  constructor
  · intro r query collection platform k res h
    rcases hst : searchTop (r.model query) (selection r query collection platform).1
      with _ | ⟨i, s⟩
    · simp [retrieve, hst] at h
    · simp only [retrieve, hst] at h
      by_cases hf : s < r.score_floor
      · simp [hf] at h
      · simp [hf] at h
        obtain ⟨hi, hs, hmax⟩ := searchTop_spec _ _ _ _ hst
        refine ⟨i, hi, ?_, ?_⟩
        · rw [← h]
          exact hs
        · intro j hj
          rw [← h]
          exact hmax j hj
  · intro u v w hv hw
    rw [l2sq_eq_dot, l2sq_eq_dot, hv, hw]
    constructor
    · intro hlt
      linarith
    · intro hlt
      linarith

/-- Witness for C5 at a concrete FAQ retrieval through the load-time-built
retriever. -/
theorem c5_inner_product_scoring_witness :
    ∃ i, i < (selection r0 "What is the return policy" "faqs" none).1.length
      ∧ (RetrievalResult.mk "Returns are accepted within 30 days." 1 "FAQ_SOURCE_0"
            none).score
          = dot (r0.model "What is the return policy")
              ((selection r0 "What is the return policy" "faqs" none).1.getD i [])
      ∧ ∀ j, j < (selection r0 "What is the return policy" "faqs" none).1.length →
          dot (r0.model "What is the return policy")
              ((selection r0 "What is the return policy" "faqs" none).1.getD j [])
            ≤ (RetrievalResult.mk "Returns are accepted within 30 days." 1 "FAQ_SOURCE_0"
                none).score :=
  c5_inner_product_scoring.1 r0 "What is the return policy" "faqs" none 1
    (RetrievalResult.mk "Returns are accepted within 30 days." 1 "FAQ_SOURCE_0" none)
    (by decide)

/-- Dropping while a predicate holds skips a fully-satisfying block. -/
theorem dropWhile_append_all {p : Char → Bool} :
    ∀ {l r : List Char}, l.all p = true →
      List.dropWhile p (l ++ r) = List.dropWhile p r := by
  intro l r h
  induction l with
  | nil => rfl
  | cons c cs ih =>
    simp only [List.all_cons, Bool.and_eq_true] at h
    simp [List.dropWhile_cons, h.1, ih h.2]

/-- Taking while a predicate holds stops exactly at the first failure. -/
theorem takeWhile_append_stop {p : Char → Bool} :
    ∀ {l : List Char} {a : Char} {r : List Char}, l.all p = true → p a = false →
      List.takeWhile p (l ++ a :: r) = l := by
  intro l a r h hpa
  induction l with
  | nil => simp [List.takeWhile_cons, hpa]
  | cons c cs ih =>
    simp only [List.all_cons, Bool.and_eq_true] at h
    simp [List.takeWhile_cons, h.1, ih h.2]

/-- A list is a prefix of itself followed by anything. -/
theorem isPrefixOf_append_self : ∀ (l t : List Char), l.isPrefixOf (l ++ t) = true := by
  intro l t
  induction l with
  | nil => simp [List.isPrefixOf]
  | cons c cs ih => simp [List.isPrefixOf, ih]

/-- Reduction of the scan at a position where the anchor matches. -/
theorem findArticleLink_pos (l : List Char) (hne : l ≠ [])
    (h : link_pattern.isPrefixOf l = true) :
    findArticleLink l
      = (match afterPattern (l.drop link_pattern.length) with
         | some b => some b
         | none => findArticleLink l.tail) := by
  cases l with
  | nil => exact absurd rfl hne
  | cons c cs => simp [findArticleLink, h]

/-- Reduction of the scan at a position where the anchor does not match. -/
theorem findArticleLink_cons_neg (c : Char) (cs : List Char)
    (h : link_pattern.isPrefixOf (c :: cs) = false) :
    findArticleLink (c :: cs) = findArticleLink cs := by
  simp [findArticleLink, h]

/-- The scan reaches the first anchor occurrence and returns its parse. -/
theorem findArticleLink_found : ∀ (pre tail b : List Char),
    (∀ i, i < pre.length →
      link_pattern.isPrefixOf ((pre ++ link_pattern ++ tail).drop i) = false) →
    afterPattern tail = some b →
    findArticleLink (pre ++ link_pattern ++ tail) = some b := by
  intro pre
  induction pre with
  | nil =>
    intro tail b _ hap
    have hne : link_pattern ++ tail ≠ [] := by
      intro he
      rcases List.append_eq_nil.mp he with ⟨h1, _⟩
      exact (by decide : link_pattern ≠ []) h1
    rw [show ([] : List Char) ++ link_pattern ++ tail = link_pattern ++ tail from rfl]
    rw [findArticleLink_pos _ hne (isPrefixOf_append_self _ _)]
    rw [List.drop_left]
    rw [hap]
  | cons a pre' ih =>
    intro tail b hpre hap
    have h0 : link_pattern.isPrefixOf (a :: (pre' ++ link_pattern ++ tail)) = false := by
      simpa using hpre 0 (by simp)
    rw [show (a :: pre') ++ link_pattern ++ tail = a :: (pre' ++ link_pattern ++ tail)
        from rfl]
    rw [findArticleLink_cons_neg _ _ h0]
    refine ih tail b ?_ hap
    intro i hi
    simpa using hpre (i + 1) (by simpa using Nat.succ_lt_succ hi)

/-- The scan fails on a text with no anchor occurrence. -/
theorem findArticleLink_none : ∀ (text : List Char),
    (∀ i, i < text.length → link_pattern.isPrefixOf (text.drop i) = false) →
    findArticleLink text = none := by
  intro text
  induction text with
  | nil => intro _; rfl
  | cons c cs ih =>
    intro h
    rw [findArticleLink_cons_neg c cs (by simpa using h 0 (by simp))]
    exact ih (fun i hi => by simpa using h (i + 1) (by simpa using Nat.succ_lt_succ hi))

/-- C6: a chunk whose first anchor occurrence is the quoted pattern
`Article link: "URL"` yields exactly the stripped URL as `article_link`;
a chunk with no occurrence of the anchor yields `none` (a missing optional
field, not an error, since the extractor is a total function); concretely
the quoted URL round-trips unchanged. -/
theorem c6_article_link_roundtrip :
    (∀ (pre sep url post : List Char),
      (∀ i, i < pre.length →
        link_pattern.isPrefixOf
          ((pre ++ link_pattern ++ (sep ++ dquote :: (url ++ dquote :: post))).drop i)
          = false) →
      sep.all Char.isWhitespace = true →
      url ≠ [] →
      url.all (fun c => !(c == dquote || c == nl)) = true →
      extract_article_link
          (String.mk (pre ++ link_pattern ++ (sep ++ dquote :: (url ++ dquote :: post))))
        = some (String.mk (stripChars url)))
    ∧ (∀ text : List Char,
        (∀ i, i < text.length → link_pattern.isPrefixOf (text.drop i) = false) →
        extract_article_link (String.mk text) = none)
    ∧ extract_article_link "Q: How do I return it?\nArticle link: \x22https://x\x22\n"
        = some "https://x" := by
  refine ⟨?_, ?_, by decide⟩
  · intro pre sep url post hpre hsep hurl hchars
    have h1 : List.dropWhile Char.isWhitespace (sep ++ dquote :: (url ++ dquote :: post))
        = dquote :: (url ++ dquote :: post) := by
      rw [dropWhile_append_all hsep]
      simp [List.dropWhile_cons, (by decide : Char.isWhitespace dquote = false)]
    have h2 : dropQuote (dquote :: (url ++ dquote :: post)) = url ++ dquote :: post := by
      simp [dropQuote]
    have h3 : List.takeWhile (fun c => !(c == dquote || c == nl)) (url ++ dquote :: post)
        = url :=
      takeWhile_append_stop hchars (by decide)
    have hap : afterPattern (sep ++ dquote :: (url ++ dquote :: post)) = some url := by
      simp only [afterPattern]
      rw [h1, h2, h3]
      cases url with
      | nil => exact absurd rfl hurl
      | cons u us => simp
    have hfind := findArticleLink_found pre (sep ++ dquote :: (url ++ dquote :: post))
      url hpre hap
    show (findArticleLink
        (pre ++ link_pattern ++ (sep ++ dquote :: (url ++ dquote :: post)))).map
          (fun b => String.mk (stripChars b))
      = some (String.mk (stripChars url))
    rw [hfind]
    rfl
  · intro text h
    show (findArticleLink text).map (fun b => String.mk (stripChars b)) = none
    rw [findArticleLink_none text h]
    rfl

/-- Witness for C6 at a concrete quoted link. -/
theorem c6_article_link_roundtrip_witness :
    extract_article_link
        (String.mk (([] : List Char) ++ link_pattern
          ++ ([Char.ofNat 32] ++ dquote :: (("https://y".toList) ++ dquote :: []))))
      = some (String.mk (stripChars ("https://y".toList))) :=
  c6_article_link_roundtrip.1 [] [Char.ofNat 32] ("https://y".toList) []
    (by intro i hi; simp at hi) (by decide) (by decide) (by decide)

/-- A token matching the course-code shape consists of letters and digits
only. -/
theorem code_shape_all_alnum (t : List Char) (h : code_shape t = true) :
    t.all Char.isAlphanum = true := by
  have hdec : t = t.takeWhile Char.isAlpha ++ t.dropWhile Char.isAlpha :=
    (List.takeWhile_append_dropWhile Char.isAlpha t).symm
  simp only [code_shape, Bool.and_eq_true, decide_eq_true_eq] at h
  obtain ⟨⟨⟨h2, h4⟩, hne⟩, hdg⟩ := h
  rw [hdec, List.all_append]
  simp only [Bool.and_eq_true]
  constructor
  · rw [List.all_eq_true]
    intro x hx
    have hal : Char.isAlpha x = true := List.mem_takeWhile_imp hx
    simp [Char.isAlphanum, hal]
  · rw [List.all_eq_true]
    intro x hx
    have hd : Char.isDigit x = true := by
      rw [List.all_eq_true] at hdg
      exact hdg x hx
    simp [Char.isAlphanum, hd]

/-- An extracted course code consists of letters and digits only (so it can
never be a raw multi-word message body). -/
theorem extract_course_code_alnum (m v : String)
    (h : extract_course_code m = some v) :
    v.toList.all Char.isAlphanum = true := by
  unfold extract_course_code at h
  rcases hf : (tokenize m.toList).find? code_shape with _ | t
  · rw [hf] at h
    exact Option.noConfusion h
  · rw [hf] at h
    have h' : some (String.mk t) = some v := h
    have hv : String.mk t = v := Option.some.inj h'
    have hcs : code_shape t = true := List.find?_some hf
    rw [← hv]
    exact code_shape_all_alnum t hcs

/-- C1: whenever a session is awaiting the course-code slot and the message
matches the strict pattern, the state machine stores as the slot value only
the extracted token (all letters and digits, never the raw message body),
clears the pending flag, and proceeds with retrieval using the stashed
intent and platform; on the spec's example the extraction yields exactly
"BIO101", not the whole sentence. -/
theorem c1_strict_slot_extraction :
    (∀ (r : Retriever) (s : Session) (msg : String) (now : Nat) (v : String),
      s.awaiting_course_code = true → extract_course_code msg = some v →
        (handle_message r s msg now).1.awaiting_course_code = false
        ∧ (handle_message r s msg now).2
            = SMOutput.answered ((retrieve r msg "instructions" s.stored_platform 1).1)
                s.stored_intent s.stored_platform (some v)
        ∧ v.toList.all Char.isAlphanum = true)
    ∧ extract_course_code "it\x27s BIO101 for biology" = some "BIO101" := by
  constructor
  · intro r s msg now v h1 h2
    refine ⟨?_, ?_, extract_course_code_alnum msg v h2⟩
    · simp [handle_message, h1, h2]
    · simp [handle_message, h1, h2]
  · decide

/-- Witness for C1 on the spec's own example message. -/
theorem c1_strict_slot_extraction_witness :
    (handle_message r0 (Session.mk [] true (some "IA_ACCESS_ISSUE") (some "CENGAGE") 0)
        "it\x27s BIO101 for biology" 3).1.awaiting_course_code = false
    ∧ (handle_message r0 (Session.mk [] true (some "IA_ACCESS_ISSUE") (some "CENGAGE") 0)
        "it\x27s BIO101 for biology" 3).2
        = SMOutput.answered
            ((retrieve r0 "it\x27s BIO101 for biology" "instructions" (some "CENGAGE") 1).1)
            (some "IA_ACCESS_ISSUE") (some "CENGAGE") (some "BIO101")
    ∧ ("BIO101" : String).toList.all Char.isAlphanum = true :=
  c1_strict_slot_extraction.1 r0
    (Session.mk [] true (some "IA_ACCESS_ISSUE") (some "CENGAGE") 0)
    "it\x27s BIO101 for biology" 3 "BIO101" rfl (by decide)

/-- C2 (code bug): evaluating the fixed flow at the failing input.  With a
session awaiting the course code and the bare reply "BIO101", the message
is correctly consumed as a slot value on the pre-append state (the output
is the resolved retrieval path carrying the extracted code), yet the raw
slot-fill fragment is still appended to history as a user turn, because the
Bug 3 fix appends unconditionally after state resolution — contradicting
the review's own description of such fragments as history pollution and the
spec's invariant that slot-fill turns are excluded from history. -/
theorem c2_slot_fragment_polluting_history :
    (handle_message r0 (Session.mk [] true (some "IA_ACCESS_ISSUE") (some "CENGAGE") 0)
        "BIO101" 5).1.history
      = [Turn.mk Role.user "BIO101"]
    ∧ (handle_message r0 (Session.mk [] true (some "IA_ACCESS_ISSUE") (some "CENGAGE") 0)
        "BIO101" 5).2
      = SMOutput.answered
          (some (RetrievalResult.mk "PROBLEM: Cengage MindTap access steps" 1
            "INSTR_CENGAGE_SOURCE_0" none))
          (some "IA_ACCESS_ISSUE") (some "CENGAGE") (some "BIO101") := by
  constructor
  · decide
  · decide

/-- C7 counterexample: the message "where can I find it" is short (five
words) and contains the deictic "it", and a most recent assistant turn
exists, yet `build_contextual_query` hands the router the raw message with
nothing prepended, because the code requires at least two history turns —
refuting the claim that every short deictic message gets a trailing excerpt
of the most recent assistant turn prepended. -/
theorem c7_counterexample :
    build_contextual_query "where can I find it"
        [Turn.mk Role.assistant "Use the Tools menu in Blackboard"]
      = "where can I find it"
    ∧ hasPronoun "where can I find it" = true
    ∧ (words "where can I find it").length ≤ 5
    ∧ lastAssistantResponse [Turn.mk Role.assistant "Use the Tools menu in Blackboard"]
        = some "Use the Tools menu in Blackboard" := by
  refine ⟨?_, ?_, ?_, ?_⟩ <;> decide

/-- C7 amended: when the history has at least two turns, its most recent
assistant turn is nonempty, and the message's lowercased whitespace-split
words include a deictic term (regardless of message length), the router
query is the first 200 characters of that assistant turn, a space, and the
message; in every other case (no deictic word, or fewer than two history
turns) the message is passed unmodified; and the reformulation never
changes what is stored in history — the state machine always appends the
raw message. -/
theorem c7_contextual_reformulation :
    ∀ (msg : String) (history : List Turn) (lr : String),
      (2 ≤ history.length → lastAssistantResponse history = some lr → lr ≠ "" →
        hasPronoun msg = true →
        build_contextual_query msg history = lr.take 200 ++ " " ++ msg)
      ∧ (hasPronoun msg = false → build_contextual_query msg history = msg)
      ∧ (history.length < 2 → build_contextual_query msg history = msg)
      ∧ (∀ (r : Retriever) (s : Session) (now : Nat),
          (handle_message r s msg now).1.history
            = s.history ++ [Turn.mk Role.user msg]) := by
  intro msg history lr
  refine ⟨?_, ?_, ?_, ?_⟩
  · intro hlen hlast hne hpron
    unfold build_contextual_query
    rw [if_neg (by omega), hlast]
    dsimp only
    rw [if_neg hne, if_pos hpron]
  · intro h
    unfold build_contextual_query
    split
    · rfl
    · split
      · rfl
      · split
        · rfl
        · simp [h]
  · intro h
    unfold build_contextual_query
    rw [if_pos h]
  · intro r s now
    by_cases ha : s.awaiting_course_code = true
    · cases he : extract_course_code msg with
      | none => simp [handle_message, ha, he]
      | some c => simp [handle_message, ha, he]
    · by_cases hn : needs_course_code msg = true
      · simp [handle_message, ha, hn]
      · simp [handle_message, ha, hn]

/-- Witness for C7 on a two-turn history ending in an assistant turn. -/
theorem c7_contextual_reformulation_witness :
    build_contextual_query "where can I find it"
        [Turn.mk Role.user "I need McGraw Hill help",
         Turn.mk Role.assistant "Use the Tools menu in Blackboard"]
      = ("Use the Tools menu in Blackboard" : String).take 200 ++ " "
          ++ "where can I find it" :=
  (c7_contextual_reformulation "where can I find it"
      [Turn.mk Role.user "I need McGraw Hill help",
       Turn.mk Role.assistant "Use the Tools menu in Blackboard"]
      "Use the Tools menu in Blackboard").1
    (by decide) (by decide) (by decide) (by decide)
